import Mathlib

set_option linter.unusedVariables false

/-!
A shallow embedding of the flake tool (flake.go, flake_other.go): a worker
pool that repeatedly runs a user command until one invocation fails, then
reports that invocation's captured output.

Pure fragments of the Go source are translated directly to Lean functions.
Behaviour supplied by the scheduler and the operating system — whether the
context is cancelled at a given observation point, what a child process
writes and how it terminates, whether os.Mkdir succeeds — enters the model
as explicit oracle inputs, so that every theorem quantifies over all such
environments.  Machine int64 values are modelled as Int with explicit
wrapping where overflow matters; byte buffers are lists of Nat.
-/

/-- Bytes of combined stdout/stderr output, as captured in a bytes.Buffer. -/
abbrev Bytes := List Nat

/-- The wait status of a child process that ran to termination, as read from
os.ProcessState.Sys().(syscall.WaitStatus) in runError.Error (flake.go:148):
either a normal exit with a code, or termination by a signal.  The signal is
carried as the string that its syscall.Signal String method renders. -/
inductive WaitStatus where
  | exited (code : Nat)
  | signaled (sig : String)
deriving DecidableEq

/-- The result of cmd.Run() at flake.go:168, from the worker's point of view:
nil, an *exec.ExitError for a process that started and terminated
unsuccessfully, or any other error when the process could not be started. -/
inductive CmdRunResult where
  | success
  | exitError (state : WaitStatus)
  | startError (msg : String)
deriving DecidableEq

/-- The Go error value returned by (*worker).run (flake.go:155-176): nil is
modelled as none; *runError carries the wait status together with the cloned
output bytes (flake.go:170-173); a failed os.Mkdir (flake.go:162-164) and a
failed process start (flake.go:175) are returned as-is, carrying only the
underlying cause and no output. -/
inductive RunErr where
  | runError (state : WaitStatus) (output : Bytes)
  | mkdirError (msg : String)
  | startError (msg : String)
deriving DecidableEq

/-- Oracle describing everything the environment decides during one
invocation: whether os.Mkdir of the scratch directory fails (and with what
message), how cmd.Run resolves, and which bytes the child writes to the
shared combined-output buffer while running. -/
structure Invocation where
  mkdirResult : Option String
  runResult : CmdRunResult
  childOutput : Bytes
deriving DecidableEq

/-- Filesystem / process events emitted by one invocation, used to state
ordering properties of scratch-directory creation and removal. -/
inductive Ev where
  | evMkdir (path : String)
  | evMkdirFail (path : String)
  | evRun
  | evRemoveAll (path : String)
deriving DecidableEq

/-- Little-endian decimal digits of n, computed with explicit fuel
(any fuel ≥ n suffices); models the digit loop inside strconv.FormatInt. -/
def natDigitsAux : Nat → Nat → List Nat
  | 0, _ => []
  | fuel + 1, n => if n = 0 then [] else n % 10 :: natDigitsAux fuel (n / 10)

/-- Little-endian decimal digits of n (empty for 0). -/
def natDigits (n : Nat) : List Nat := natDigitsAux n n

/-- The ASCII character of a decimal digit. -/
def digitChar (d : Nat) : Char := Char.ofNat (48 + d)

/-- strconv.FormatInt(id, 10) for a nonnegative id (flake.go:161); sequence
ids in flake are always positive. -/
def formatInt (n : Nat) : String :=
  if n = 0 then "0" else String.mk ((natDigits n).reverse.map digitChar)

/-- filepath.Join as used at flake.go:161: the run root produced by
os.MkdirTemp is a nonempty clean path with no trailing separator, and the
second component is a bare decimal numeral, so Join is plain concatenation
with one separator. -/
def filepathJoin (a b : String) : String := a ++ "/" ++ b

/-- The worker struct (flake.go:136-140): the command, the run-root scratch
directory (used iff nonempty), and the reusable combined-output buffer. -/
structure Worker where
  cmd : List String
  tmpdir : String
  outBuf : Bytes
deriving DecidableEq

/-- The bytes cmd.Run appends to the combined-output buffer: nothing when the
process never started, otherwise exactly what the child wrote. -/
def writtenBytes (inv : Invocation) : Bytes :=
  match inv.runResult with
  | .startError _ => []
  | _ => inv.childOutput

/-- Classification of cmd.Run's error at flake.go:168-175: nil stays nil; an
*exec.ExitError becomes a *runError carrying slices.Clone of the buffer's
bytes at classification time; any other error is returned unchanged. -/
def classifyRun (res : CmdRunResult) (bufAfter : Bytes) : Option RunErr :=
  match res with
  | .success => none
  | .exitError st => some (.runError st bufAfter)
  | .startError msg => some (.startError msg)

/-- Shallow embedding of (*worker).run (flake.go:155-176).  The buffer is
Reset first (flake.go:157); when a run root is configured, the
per-invocation directory root/id is created before the process runs and a
deferred os.RemoveAll removes it after cmd.Run returns on every path; a
failed os.Mkdir returns its error before the process runner is invoked.
Returns the Go error value, the worker with its updated buffer, and the
emitted event trace. -/
def Worker.run (w : Worker) (id : Nat) (inv : Invocation) :
    Option RunErr × Worker × List Ev :=
  let buf0 : Bytes := []
  if w.tmpdir = "" then
    let buf1 := buf0 ++ writtenBytes inv
    (classifyRun inv.runResult buf1, { w with outBuf := buf1 }, [Ev.evRun])
  else
    let tdir := filepathJoin w.tmpdir (formatInt id)
    match inv.mkdirResult with
    | some msg =>
      (some (.mkdirError msg), { w with outBuf := buf0 }, [Ev.evMkdirFail tdir])
    | none =>
      let buf1 := buf0 ++ writtenBytes inv
      (classifyRun inv.runResult buf1, { w with outBuf := buf1 },
        [Ev.evMkdir tdir, Ev.evRun, Ev.evRemoveAll tdir])

/-- Go's fmt %q applied to a signal name (flake.go:150): the String form of a
syscall.Signal is wrapped in double quotes (signal names contain no
characters that %q would escape). -/
def goQuote (s : String) : String := "\"" ++ s ++ "\""

/-- (*runError).Error (flake.go:147-153): a signal-terminated process renders
as "got signal" followed by the %q-quoted signal name, otherwise as
"status" followed by the decimal exit code. -/
def runErrorMessage : WaitStatus → String
  | .signaled sig => "got signal " ++ goQuote sig
  | .exited code => "status " ++ Nat.repr code

/-- The terminal condition that ended the coordinator's select loop
(flake.go:101-118): either the interrupt-signal channel fired with no failure
recorded, or a worker delivered a non-nil error on results. -/
inductive Terminal where
  | interrupted
  | failed (e : RunErr)
deriving DecidableEq

/-- The process exit status of main (flake.go:33-134) as a function of the
invocation configuration and the terminal condition.  log.Fatalln exits with
status 1 (invalid -p at flake.go:42, MkdirTemp failure at flake.go:53);
a missing command exits 2 (flake.go:44-47); every path through the select
loop — interrupt as well as a delivered failure or spawn error — reaches the
end of main through log.Printf calls and returns normally, so the process
exits 0 (flake.go:124-134). -/
def mainExitCode (parallelism : Int) (nargs : Nat)
    (useTmpdir mkdirTempFails : Bool) (t : Terminal) : Nat :=
  if parallelism < 1 then 1
  else if nargs < 1 then 2
  else if useTmpdir && mkdirTempFails then 1
  else 0

/-- C1 counterexample: with a valid configuration (parallelism 4, one
argument, no scratch root), a run that terminates because a worker delivered
a reproduced Failure (exit status 1) still makes the process exit with
status 0, because main reports the failure with log.Printf and returns
normally — contradicting the claim that the exit status is nonzero whenever
the run terminates because of a reproduced Failure. -/
theorem flake_exit_nonzero_on_failure_counterexample :
    mainExitCode 4 1 false false
      (Terminal.failed (RunErr.runError (WaitStatus.exited 1) [])) = 0 := rfl

/-- C1 (amended): the exit status is a total function of the invocation
configuration alone, covering every path through main in the order the code
checks them: an invalid parallelism (-p below 1) exits 1; otherwise a missing
command exits 2; otherwise a failure to create the run-root scratch directory
at startup exits 1; and in every remaining case the status is 0 — on a
graceful external interrupt just as when the run terminates because of a
reproduced Failure or a SpawnError delivered during the run, both of which
main reports on standard error and then returns normally. -/
theorem flake_exit_code_amended (p : Int) (nargs : Nat) (useT mkF : Bool)
    (t : Terminal) :
    (p < 1 → mainExitCode p nargs useT mkF t = 1)
  ∧ (1 ≤ p → nargs = 0 → mainExitCode p nargs useT mkF t = 2)
  ∧ (1 ≤ p → 1 ≤ nargs → useT = true → mkF = true →
      mainExitCode p nargs useT mkF t = 1)
  ∧ (1 ≤ p → 1 ≤ nargs → (useT = true → mkF = false) →
      mainExitCode p nargs useT mkF t = 0) := by
  refine ⟨?_, ?_, ?_, ?_⟩
  · intro h
    simp [mainExitCode, h]
  · intro hp h
    simp [mainExitCode, not_lt.mpr hp, h]
  · intro hp h1 h2 h3
    simp [mainExitCode, not_lt.mpr hp, Nat.not_lt.mpr h1, h2, h3]
  · intro hp h1 h2
    have hb : ¬ (useT && mkF) = true := by
      cases useT <;> cases mkF <;> simp_all
    simp [mainExitCode, not_lt.mpr hp, Nat.not_lt.mpr h1, hb]

/-- C1 witness: instantiating the amended exit-code theorem at concrete
configurations: -p 0 exits 1; no command given exits 2; a failed
scratch-root creation at startup exits 1; a run ending in a reproduced
spawn error exits 0. -/
theorem flake_exit_code_amended_witness :
    mainExitCode 0 1 false false Terminal.interrupted = 1
  ∧ mainExitCode 4 0 false false Terminal.interrupted = 2
  ∧ mainExitCode 4 1 true true Terminal.interrupted = 1
  ∧ mainExitCode 4 2 true false
      (Terminal.failed (RunErr.startError "exec: not found")) = 0 :=
  ⟨(flake_exit_code_amended 0 1 false false Terminal.interrupted).1
      (by decide),
   (flake_exit_code_amended 4 0 false false Terminal.interrupted).2.1
      (by decide) rfl,
   (flake_exit_code_amended 4 1 true true Terminal.interrupted).2.2.1
      (by decide) (by decide) rfl rfl,
   (flake_exit_code_amended 4 2 true false
      (Terminal.failed (RunErr.startError "exec: not found"))).2.2.2
      (by decide) (by decide) (fun _ => rfl)⟩

/-- The Go error value produced by one invocation. -/
def runErrOf (w : Worker) (id : Nat) (inv : Invocation) : Option RunErr :=
  (w.run id inv).1

/-- The worker state (with its reused buffer) after one invocation. -/
def runWorkerAfter (w : Worker) (id : Nat) (inv : Invocation) : Worker :=
  (w.run id inv).2.1

/-- The event trace emitted by one invocation. -/
def runEvents (w : Worker) (id : Nat) (inv : Invocation) : List Ev :=
  (w.run id inv).2.2

/-- When the scratch directory is not needed or its creation succeeded, the
error of (*worker).run is the classification of cmd.Run's result over the
bytes written by this attempt alone (the buffer was Reset first). -/
theorem runErr_eq_classify (w : Worker) (id : Nat) (inv : Invocation)
    (hmk : w.tmpdir = "" ∨ inv.mkdirResult = none) :
    runErrOf w id inv = classifyRun inv.runResult (writtenBytes inv) := by
  by_cases htd : w.tmpdir = ""
  · simp [runErrOf, Worker.run, htd]
  · rcases hmk with h | h
    · exact absurd h htd
    · simp [runErrOf, Worker.run, htd, h]

/-- One invocation never changes the worker's command or run root. -/
theorem run_tmpdir_eq (w : Worker) (id : Nat) (inv : Invocation) :
    (runWorkerAfter w id inv).tmpdir = w.tmpdir := by
  by_cases htd : w.tmpdir = ""
  · simp [runWorkerAfter, Worker.run, htd]
  · cases hm : inv.mkdirResult <;> simp [runWorkerAfter, Worker.run, htd, hm]

/-- C2 counterexample: a process terminated by SIGINT is described as the
string containing the %q-quoted signal name, with literal double quotes
around the name — not the bare template with the name substituted, as the
claim's description "got signal <name>" states. -/
theorem flake_signal_description_counterexample :
    runErrorMessage (WaitStatus.signaled "interrupt")
        = "got signal \"interrupt\""
      ∧ runErrorMessage (WaitStatus.signaled "interrupt")
        ≠ "got signal interrupt" := by
  exact ⟨rfl, by decide⟩

/-- C2 (amended): whenever the scratch step does not intervene (no run root,
or mkdir succeeded), cmd.Run returning nil (child exit code 0) yields
Success; an unsuccessful termination yields a Failure carrying exactly the
bytes this invocation wrote, described as "status <code>" for a nonzero exit
and as "got signal" followed by the double-quoted signal name for a
signal-terminated process; a process that could not be started yields a
SpawnError carrying only the underlying cause; and a failed scratch-directory
creation yields a SpawnError carrying the mkdir error, with no output
attached in either SpawnError case. -/
theorem flake_outcome_classification (w : Worker) (id : Nat)
    (inv : Invocation) :
    ((w.tmpdir = "" ∨ inv.mkdirResult = none) →
        inv.runResult = CmdRunResult.success → runErrOf w id inv = none)
  ∧ ((w.tmpdir = "" ∨ inv.mkdirResult = none) → ∀ st,
        inv.runResult = CmdRunResult.exitError st →
        runErrOf w id inv = some (RunErr.runError st inv.childOutput))
  ∧ (∀ c, runErrorMessage (WaitStatus.exited c) = "status " ++ Nat.repr c)
  ∧ (∀ s, runErrorMessage (WaitStatus.signaled s)
        = "got signal " ++ goQuote s)
  ∧ ((w.tmpdir = "" ∨ inv.mkdirResult = none) → ∀ msg,
        inv.runResult = CmdRunResult.startError msg →
        runErrOf w id inv = some (RunErr.startError msg))
  ∧ (w.tmpdir ≠ "" → ∀ msg, inv.mkdirResult = some msg →
        runErrOf w id inv = some (RunErr.mkdirError msg)) := by
  refine ⟨?_, ?_, fun c => rfl, fun s => rfl, ?_, ?_⟩
  · intro hmk hs
    rw [runErr_eq_classify w id inv hmk]
    simp [classifyRun, hs]
  · intro hmk st hst
    rw [runErr_eq_classify w id inv hmk]
    simp [classifyRun, writtenBytes, hst]
  · intro hmk msg hmsg
    rw [runErr_eq_classify w id inv hmk]
    simp [classifyRun, hmsg]
  · intro htd msg hmsg
    simp [runErrOf, Worker.run, htd, hmsg]

/-- C2 witness: a child that exits with status 3 after writing bytes "hi"
produces a Failure carrying exactly those bytes; its description renders as
"status 3". -/
theorem flake_outcome_classification_witness :
    runErrOf { cmd := ["sh"], tmpdir := "", outBuf := [7, 7] } 1
        { mkdirResult := none,
          runResult := CmdRunResult.exitError (WaitStatus.exited 3),
          childOutput := [104, 105] }
      = some (RunErr.runError (WaitStatus.exited 3) [104, 105]) :=
  (flake_outcome_classification
      { cmd := ["sh"], tmpdir := "", outBuf := [7, 7] } 1
      { mkdirResult := none,
        runResult := CmdRunResult.exitError (WaitStatus.exited 3),
        childOutput := [104, 105] }).2.1 (Or.inl rfl)
    (WaitStatus.exited 3) rfl

/-- C3: the buffer is Reset at the start of every attempt and a Failure's
output is a copy of the buffer taken at classification time, so for any two
consecutive invocations on the same worker — whatever the first one did and
whatever was in the buffer before — a Failure produced by the second
invocation carries exactly the bytes that second invocation wrote, and a
successful first invocation reports no output at all.  (The clone at
flake.go:172 is modelled by value semantics: the reported bytes are a value,
which later buffer reuse cannot mutate.) -/
theorem flake_output_capture_isolation (w : Worker) (id1 id2 : Nat)
    (inv1 inv2 : Invocation) (st2 : WaitStatus)
    (hmk2 : w.tmpdir = "" ∨ inv2.mkdirResult = none)
    (h2 : inv2.runResult = CmdRunResult.exitError st2) :
    ((w.tmpdir = "" ∨ inv1.mkdirResult = none) →
        inv1.runResult = CmdRunResult.success → runErrOf w id1 inv1 = none)
  ∧ runErrOf (runWorkerAfter w id1 inv1) id2 inv2
      = some (RunErr.runError st2 inv2.childOutput) := by
  constructor
  · intro hmk1 hs
    rw [runErr_eq_classify w id1 inv1 hmk1]
    simp [classifyRun, hs]
  · have hmk2' : (runWorkerAfter w id1 inv1).tmpdir = ""
        ∨ inv2.mkdirResult = none := by
      rw [run_tmpdir_eq]; exact hmk2
    rw [runErr_eq_classify _ id2 inv2 hmk2']
    simp [classifyRun, writtenBytes, h2]

/-- C3 witness: a worker whose buffer still holds leftover bytes runs a
successful invocation that writes "AA", then a failing invocation that
writes "B"; the first reports no output and the Failure reports exactly
"B". -/
theorem flake_output_capture_isolation_witness :
    runErrOf { cmd := ["sh"], tmpdir := "", outBuf := [1, 2, 3] } 1
        { mkdirResult := none, runResult := CmdRunResult.success,
          childOutput := [65, 65] } = none
  ∧ runErrOf
      (runWorkerAfter { cmd := ["sh"], tmpdir := "", outBuf := [1, 2, 3] } 1
        { mkdirResult := none, runResult := CmdRunResult.success,
          childOutput := [65, 65] }) 2
      { mkdirResult := none,
        runResult := CmdRunResult.exitError (WaitStatus.exited 1),
        childOutput := [66] }
      = some (RunErr.runError (WaitStatus.exited 1) [66]) := by
  have h := flake_output_capture_isolation
    { cmd := ["sh"], tmpdir := "", outBuf := [1, 2, 3] } 1 2
    { mkdirResult := none, runResult := CmdRunResult.success,
      childOutput := [65, 65] }
    { mkdirResult := none,
      runResult := CmdRunResult.exitError (WaitStatus.exited 1),
      childOutput := [66] }
    (WaitStatus.exited 1) (Or.inl rfl) rfl
  exact ⟨h.1 (Or.inl rfl) rfl, h.2⟩

/-- C4: with a scratch root configured, a successful mkdir yields the exact
event trace "create root/id, run the process, remove root/id" — the
directory, named by the sequence id, is created before the child starts and
removed after the invocation completes, and this holds for every termination
of cmd.Run (success, failure, kill-on-cancellation, and a spawn error after
creation alike, since the removal is deferred); while a failed mkdir yields a
SpawnError carrying the mkdir error and the process runner is never
invoked. -/
theorem flake_scratch_dir_lifecycle (w : Worker) (id : Nat)
    (inv : Invocation) (hroot : w.tmpdir ≠ "") :
    (inv.mkdirResult = none →
        runEvents w id inv
          = [Ev.evMkdir (filepathJoin w.tmpdir (formatInt id)), Ev.evRun,
             Ev.evRemoveAll (filepathJoin w.tmpdir (formatInt id))])
  ∧ (∀ msg, inv.mkdirResult = some msg →
        runErrOf w id inv = some (RunErr.mkdirError msg)
        ∧ Ev.evRun ∉ runEvents w id inv) := by
  constructor
  · intro hm
    simp [runEvents, Worker.run, hroot, hm]
  · intro msg hm
    refine ⟨?_, ?_⟩
    · simp [runErrOf, Worker.run, hroot, hm]
    · simp [runEvents, Worker.run, hroot, hm]

/-- C4 witness: invocation 7 under run root "/tmp/flake-x" creates
"/tmp/flake-x/7" before the process runs and removes it afterwards; an
invocation whose mkdir fails yields the mkdir SpawnError and never runs the
process. -/
theorem flake_scratch_dir_lifecycle_witness :
    runEvents { cmd := ["sh"], tmpdir := "/tmp/flake-x", outBuf := [] } 7
        { mkdirResult := none, runResult := CmdRunResult.success,
          childOutput := [10] }
      = [Ev.evMkdir "/tmp/flake-x/7", Ev.evRun,
         Ev.evRemoveAll "/tmp/flake-x/7"]
  ∧ runErrOf { cmd := ["sh"], tmpdir := "/tmp/flake-x", outBuf := [] } 8
        { mkdirResult := some "permission denied",
          runResult := CmdRunResult.success, childOutput := [] }
      = some (RunErr.mkdirError "permission denied") := by
  constructor
  · exact ((flake_scratch_dir_lifecycle
        { cmd := ["sh"], tmpdir := "/tmp/flake-x", outBuf := [] } 7
        { mkdirResult := none, runResult := CmdRunResult.success,
          childOutput := [10] } (by decide)).1 rfl).trans (by decide)
  · exact ((flake_scratch_dir_lifecycle
        { cmd := ["sh"], tmpdir := "/tmp/flake-x", outBuf := [] } 8
        { mkdirResult := some "permission denied",
          runResult := CmdRunResult.success, childOutput := [] }
        (by decide)).2 "permission denied" rfl).1

/-- Resolution of the publishing select at flake.go:78-82: the send on
results was taken, the ctx.Done case was taken (the result is abandoned and
the goroutine returns), or no case is ready and the select blocks. -/
inductive SendRes where
  | delivered
  | abandoned
  | blockedSend
deriving DecidableEq

/-- Semantics of Go's two-case select at flake.go:78-82: when both the send
and the done channel are ready the runtime picks either case (the oracle bit
decides); with exactly one ready case that case runs; with none the select
blocks. -/
def sendStep (consumerReady ctxDone choice : Bool) : SendRes :=
  if consumerReady && ctxDone then
    (if choice then .delivered else .abandoned)
  else if consumerReady then .delivered
  else if ctxDone then .abandoned
  else .blockedSend

/-- Scheduler oracle for one iteration of the worker goroutine loop
(flake.go:70-86): whether ctx.Done is already closed at the top-of-loop
check; the value the shared atomic counter returned for this iteration; the
error w.run produced; whether a consumer is ready to receive on results,
whether ctx.Done is closed at the publishing select, and the select's pick
when both cases are ready. -/
structure IterOracle where
  doneAtCheck : Bool
  claimedId : Nat
  res : Option RunErr
  consumerReady : Bool
  doneAtSend : Bool
  selChoice : Bool
deriving DecidableEq

/-- Observable events of the worker goroutine: claiming a sequence id,
publishing an error on results, abandoning it on cancellation, or being
stuck in a select with no ready case. -/
inductive LEvent where
  | claim (id : Nat)
  | publish (e : Option RunErr)
  | abandon (e : Option RunErr)
  | stuck
deriving DecidableEq

/-- The worker goroutine loop (flake.go:68-87), driven by a finite oracle
trace (a run of k iterations uses the first k oracle entries; a longer
oracle only extends the observations).  Each iteration checks ctx.Done via
the non-blocking select at flake.go:71-75 and returns if cancelled, claims
the sequence id (flake.go:76), runs the invocation, publishes the resulting
error through the cancellation-aware select, and returns when the select
took the ctx.Done case or the error was non-nil (flake.go:83-85). -/
def workerLoop : List IterOracle → List LEvent
  | [] => []
  | o :: rest =>
    if o.doneAtCheck then []
    else
      match sendStep o.consumerReady o.doneAtSend o.selChoice with
      | .delivered =>
        if o.res.isSome then [.claim o.claimedId, .publish o.res]
        else .claim o.claimedId :: .publish o.res :: workerLoop rest
      | .abandoned => [.claim o.claimedId, .abandon o.res]
      | .blockedSend => [.claim o.claimedId, .stuck]

/-- C5: in every iteration of every worker's loop, the cancellation check
comes first: if ctx.Done is closed at the check, the worker exits its loop
without claiming a sequence id (no event at all is emitted, whatever oracle
would follow); and whenever the invocation's outcome is not Success, the
worker exits the loop right after the publishing select — after delivering
the non-nil error, or after abandoning it on cancellation — so no further
invocation is started, independently of the rest of the schedule. -/
theorem flake_worker_loop_control (o : IterOracle) (rest : List IterOracle) :
    (o.doneAtCheck = true → workerLoop (o :: rest) = [])
  ∧ (o.doneAtCheck = false → o.res.isSome = true →
      sendStep o.consumerReady o.doneAtSend o.selChoice = SendRes.delivered →
      workerLoop (o :: rest)
        = [LEvent.claim o.claimedId, LEvent.publish o.res])
  ∧ (o.doneAtCheck = false →
      sendStep o.consumerReady o.doneAtSend o.selChoice = SendRes.abandoned →
      workerLoop (o :: rest)
        = [LEvent.claim o.claimedId, LEvent.abandon o.res]) := by
  refine ⟨?_, ?_, ?_⟩
  · intro h
    simp [workerLoop, h]
  · intro h1 h2 h3
    simp [workerLoop, h1, h3, h2]
  · intro h1 h2
    simp [workerLoop, h1, h2]

/-- C5 witness: a worker that claims id 5, sees its invocation fail with
exit status 1, and delivers the error to a ready coordinator, stops its loop
at once — the pending oracle for a further iteration is never consumed. -/
theorem flake_worker_loop_control_witness :
    workerLoop
      [{ doneAtCheck := false, claimedId := 5,
         res := some (RunErr.runError (WaitStatus.exited 1) []),
         consumerReady := true, doneAtSend := false, selChoice := false },
       { doneAtCheck := false, claimedId := 6, res := none,
         consumerReady := true, doneAtSend := false, selChoice := false }]
      = [LEvent.claim 5,
         LEvent.publish (some (RunErr.runError (WaitStatus.exited 1) []))] :=
  (flake_worker_loop_control
      { doneAtCheck := false, claimedId := 5,
        res := some (RunErr.runError (WaitStatus.exited 1) []),
        consumerReady := true, doneAtSend := false, selChoice := false }
      [{ doneAtCheck := false, claimedId := 6, res := none,
         consumerReady := true, doneAtSend := false, selChoice := false }]).2.1
    rfl rfl rfl

/-- C6: once the cancellation signal is raised, the publishing select can
never block — its ctx.Done case is ready — and when additionally no consumer
is there to take the result, the worker abandons the outcome and exits its
loop immediately, whatever the rest of the schedule would have been. -/
theorem flake_publish_respects_cancellation (o : IterOracle)
    (rest : List IterOracle) (hdone : o.doneAtSend = true) :
    sendStep o.consumerReady o.doneAtSend o.selChoice ≠ SendRes.blockedSend
  ∧ (o.doneAtCheck = false → o.consumerReady = false →
      workerLoop (o :: rest)
        = [LEvent.claim o.claimedId, LEvent.abandon o.res]) := by
  constructor
  · cases hc : o.consumerReady <;> cases hch : o.selChoice <;>
      simp [sendStep, hdone, hc, hch]
  · intro h1 h2
    simp [workerLoop, h1, sendStep, h2, hdone]

/-- C6 witness: a worker holding a successful result while the run is being
cancelled and the coordinator has stopped reading abandons the result and
exits after claiming id 9. -/
theorem flake_publish_respects_cancellation_witness :
    workerLoop
      [{ doneAtCheck := false, claimedId := 9, res := none,
         consumerReady := false, doneAtSend := true, selChoice := false }]
      = [LEvent.claim 9, LEvent.abandon none] :=
  (flake_publish_respects_cancellation
      { doneAtCheck := false, claimedId := 9, res := none,
        consumerReady := false, doneAtSend := true, selChoice := false }
      [] rfl).2 rfl rfl

/-- The shared atomic counter (var id int64 at flake.go:59, claimed by
atomic.AddInt64 at flake.go:76): the k-th AddInt64 of the run,
whichever worker performs it, atomically increments the counter and returns
the new value.  A schedule lists, in the order the atomic increments
serialize, which worker performs each claim; claimSeqFrom threads the
counter through the schedule. -/
def claimSeqFrom (ctr : Nat) : List Nat → List (Nat × Nat)
  | [] => []
  | wk :: rest => (wk, ctr + 1) :: claimSeqFrom (ctr + 1) rest

/-- All (worker, sequence id) claims of one run, the counter starting at
zero. -/
def claimSeq (sched : List Nat) : List (Nat × Nat) := claimSeqFrom 0 sched

/-- The sequence ids of one run, in the order they were claimed. -/
def claimIds (sched : List Nat) : List Nat := (claimSeq sched).map Prod.snd

/-- The ids claimed from counter value ctr onwards form the contiguous range
ctr+1, ctr+2, …. -/
theorem claimSeqFrom_ids (ctr : Nat) (sched : List Nat) :
    (claimSeqFrom ctr sched).map Prod.snd
      = List.range' (ctr + 1) sched.length := by
  induction sched generalizing ctr with
  | nil => simp [claimSeqFrom]
  | cons wk rest ih =>
    simp [claimSeqFrom, ih, List.range'_succ]

/-- The ids of a whole run form the contiguous range 1, 2, …, k. -/
theorem claimIds_eq_range (sched : List Nat) :
    claimIds sched = List.range' 1 sched.length := by
  simpa [claimIds, claimSeq] using claimSeqFrom_ids 0 sched

/-- claimIds has one id per schedule entry. -/
theorem claimIds_length (sched : List Nat) :
    (claimIds sched).length = sched.length := by
  simp [claimIds_eq_range sched]

/-- The i-th claimed id of a run is 1 + i. -/
theorem claimIds_get (sched : List Nat) (i : Nat)
    (hi : i < (claimIds sched).length) :
    (claimIds sched).get ⟨i, hi⟩ = 1 + i := by
  have hi' : i < (List.range' 1 sched.length).length := by
    simpa [claimIds_eq_range sched] using hi
  calc (claimIds sched).get ⟨i, hi⟩
      = (List.range' 1 sched.length).get ⟨i, hi'⟩ := by
        congr 1
        · exact claimIds_eq_range sched
        · rw [Fin.heq_ext_iff]
          rw [claimIds_eq_range sched]
    _ = 1 + i := by
        have h := @List.getElem_range' 1 sched.length 1 i hi'
        rw [List.get_eq_getElem, h]
        omega

/-- Every decimal digit produced by natDigitsAux is below 10. -/
theorem natDigitsAux_lt_ten (fuel : Nat) :
    ∀ n, ∀ d ∈ natDigitsAux fuel n, d < 10 := by
  induction fuel with
  | zero => intro n d hd; simp [natDigitsAux] at hd
  | succ fuel ih =>
    intro n d hd
    by_cases hn : n = 0
    · simp [natDigitsAux, hn] at hd
    · rw [show natDigitsAux (fuel + 1) n
            = n % 10 :: natDigitsAux fuel (n / 10) by simp [natDigitsAux, hn]]
        at hd
      rcases List.mem_cons.mp hd with h | h
      · subst h; exact Nat.mod_lt _ (by norm_num)
      · exact ih (n / 10) d h

/-- The value denoted by a little-endian decimal digit list. -/
def digitsVal : List Nat → Nat
  | [] => 0
  | d :: rest => d + 10 * digitsVal rest

/-- With enough fuel, natDigitsAux is a section of digitsVal. -/
theorem digitsVal_natDigitsAux (fuel : Nat) :
    ∀ n, n ≤ fuel → digitsVal (natDigitsAux fuel n) = n := by
  induction fuel with
  | zero => intro n h; interval_cases n; simp [natDigitsAux, digitsVal]
  | succ fuel ih =>
    intro n h
    by_cases hn : n = 0
    · simp [natDigitsAux, hn, digitsVal]
    · have hstep : natDigitsAux (fuel + 1) n
          = n % 10 :: natDigitsAux fuel (n / 10) := by simp [natDigitsAux, hn]
      have hlt : n / 10 ≤ fuel := by
        have := Nat.div_lt_self (Nat.pos_of_ne_zero hn) (by norm_num : 1 < 10)
        omega
      rw [hstep, digitsVal, ih (n / 10) hlt]
      omega

/-- Recovering the value of the digit list of n gives back n. -/
theorem digitsVal_natDigits (n : Nat) : digitsVal (natDigits n) = n :=
  digitsVal_natDigitsAux n n le_rfl

/-- Distinct decimal digits map to distinct ASCII characters. -/
theorem digitChar_inj :
    ∀ a < 10, ∀ b < 10, digitChar a = digitChar b → a = b := by decide

/-- Mapping digitChar over digit lists is injective. -/
theorem map_digitChar_inj (l1 : List Nat) :
    ∀ l2 : List Nat, (∀ d ∈ l1, d < 10) → (∀ d ∈ l2, d < 10) →
      l1.map digitChar = l2.map digitChar → l1 = l2 := by
  induction l1 with
  | nil => intro l2 _ _ h; cases l2 <;> simp_all
  | cons a t ih =>
    intro l2 h1 h2 h
    cases l2 with
    | nil => simp_all
    | cons b t2 =>
      simp only [List.map_cons, List.cons.injEq] at h
      have hab : a = b :=
        digitChar_inj a (h1 a (by simp)) b (h2 b (by simp)) h.1
      have ht : t = t2 := ih t2 (fun d hd => h1 d (by simp [hd]))
        (fun d hd => h2 d (by simp [hd])) h.2
      simp [hab, ht]

/-- strconv.FormatInt is injective on positive ids. -/
theorem formatInt_inj_pos (m n : Nat) (hm : 1 ≤ m) (hn : 1 ≤ n)
    (h : formatInt m = formatInt n) : m = n := by
  have hm0 : ¬ m = 0 := by omega
  have hn0 : ¬ n = 0 := by omega
  rw [formatInt, if_neg hm0, formatInt, if_neg hn0] at h
  have hdata : (natDigits m).reverse.map digitChar
      = (natDigits n).reverse.map digitChar := congrArg String.data h
  have hrev : (natDigits m).reverse = (natDigits n).reverse :=
    map_digitChar_inj _ _
      (fun d hd => natDigitsAux_lt_ten m m d (List.mem_reverse.mp hd))
      (fun d hd => natDigitsAux_lt_ten n n d (List.mem_reverse.mp hd)) hdata
  have hdig : natDigits m = natDigits n := List.reverse_injective hrev
  have hval := congrArg digitsVal hdig
  rwa [digitsVal_natDigits m, digitsVal_natDigits n] at hval

/-- Joining two names under the same root yields equal paths only for equal
names. -/
theorem filepathJoin_right_inj (root a b : String)
    (h : filepathJoin root a = filepathJoin root b) : a = b := by
  have hd : (root.data ++ "/".data) ++ a.data
      = (root.data ++ "/".data) ++ b.data := congrArg String.data h
  exact congrArg String.mk (List.append_cancel_left hd)

/-- C10: sequence ids come from single atomic increments of one shared
counter starting at zero, so across all workers, in the order the increments
serialize, the claimed ids are exactly the globally contiguous sequence
1, 2, …, k — each claim returning the previous counter value plus one — which
is strictly stronger than unique-but-not-necessarily-contiguous. -/
theorem flake_ids_globally_contiguous (sched : List Nat) :
    claimIds sched = List.range' 1 sched.length
  ∧ ∀ ctr wk rest, claimSeqFrom ctr (wk :: rest)
      = (wk, ctr + 1) :: claimSeqFrom (ctr + 1) rest :=
  ⟨claimIds_eq_range sched, fun _ _ _ => rfl⟩

/-- C7: for every run schedule and every two distinct claim positions — in
particular claims performed concurrently by different workers, in whatever
order their atomic increments serialize — the claimed sequence ids differ,
and under any scratch root the per-invocation scratch directory paths
root/id differ as well; ids arise only from the shared atomic counter
threaded through claimSeqFrom. -/
theorem flake_unique_ids_and_paths (root : String) (sched : List Nat)
    (i j : Nat) (hi : i < (claimIds sched).length)
    (hj : j < (claimIds sched).length) (hij : i ≠ j) :
    (claimIds sched).get ⟨i, hi⟩ ≠ (claimIds sched).get ⟨j, hj⟩
  ∧ filepathJoin root (formatInt ((claimIds sched).get ⟨i, hi⟩))
      ≠ filepathJoin root (formatInt ((claimIds sched).get ⟨j, hj⟩)) := by
  rw [claimIds_get sched i hi, claimIds_get sched j hj]
  constructor
  · omega
  · intro hpath
    have hfmt := filepathJoin_right_inj root _ _ hpath
    have := formatInt_inj_pos (1 + i) (1 + j) (by omega) (by omega) hfmt
    omega

/-- C7 witness: in a run where worker 0 claims, then worker 1, then worker 0
again, the first and third claims receive different ids (1 and 3) and
different scratch directories under the run root. -/
theorem flake_unique_ids_and_paths_witness :
    (claimIds [0, 1, 0]).get ⟨0, by decide⟩
        ≠ (claimIds [0, 1, 0]).get ⟨2, by decide⟩
  ∧ filepathJoin "/tmp/flake-1"
        (formatInt ((claimIds [0, 1, 0]).get ⟨0, by decide⟩))
      ≠ filepathJoin "/tmp/flake-1"
        (formatInt ((claimIds [0, 1, 0]).get ⟨2, by decide⟩)) :=
  flake_unique_ids_and_paths "/tmp/flake-1" [0, 1, 0] 0 2
    (by decide) (by decide) (by decide)

/-- Environment lookup with the semantics the OS applies to the list exec
receives: for duplicate variables the last entry wins. -/
def envLookup (env : List (String × String)) (k : String) : Option String :=
  match env with
  | [] => none
  | (k', v) :: rest =>
    match envLookup rest k with
    | some v' => some v'
    | none => if k' = k then some v else none

/-- The child environment built at flake.go:160-167: with a run root
configured, cmd.Environ() — the parent environment — is extended with a
trailing FLAKEDIR entry naming this invocation's scratch directory;
otherwise cmd.Env stays nil and the child receives the parent environment
unchanged. -/
def Worker.childEnv (w : Worker) (parentEnv : List (String × String))
    (id : Nat) : List (String × String) :=
  if w.tmpdir = "" then parentEnv
  else parentEnv ++ [("FLAKEDIR", filepathJoin w.tmpdir (formatInt id))]

/-- A trailing binding wins the lookup for its key. -/
theorem envLookup_append_last (l : List (String × String)) (k v : String) :
    envLookup (l ++ [(k, v)]) k = some v := by
  induction l with
  | nil => simp [envLookup]
  | cons p rest ih =>
    obtain ⟨k', v'⟩ := p
    simp [envLookup, ih]

/-- C8: when a scratch root is configured, the child's environment binds
FLAKEDIR to exactly this invocation's scratch-directory path root/id; when
no scratch root is configured, the child receives the parent environment
unmodified — in particular FLAKEDIR is absent whenever the parent does not
itself define it. -/
theorem flake_flakedir_env (w : Worker) (parentEnv : List (String × String))
    (id : Nat) :
    (w.tmpdir ≠ "" →
        envLookup (w.childEnv parentEnv id) "FLAKEDIR"
          = some (filepathJoin w.tmpdir (formatInt id)))
  ∧ (w.tmpdir = "" →
        w.childEnv parentEnv id = parentEnv
        ∧ (envLookup parentEnv "FLAKEDIR" = none →
            envLookup (w.childEnv parentEnv id) "FLAKEDIR" = none)) := by
  constructor
  · intro h
    simp [Worker.childEnv, h, envLookup_append_last]
  · intro h
    refine ⟨by simp [Worker.childEnv, h], fun hnone => ?_⟩
    simp [Worker.childEnv, h, hnone]

/-- C8 witness: invocation 5 under run root "/tmp/flake-z" sees
FLAKEDIR=/tmp/flake-z/5; with no run root the child environment is exactly
the parent's and FLAKEDIR stays absent. -/
theorem flake_flakedir_env_witness :
    envLookup
        (Worker.childEnv { cmd := ["sh"], tmpdir := "/tmp/flake-z", outBuf := [] }
          [("PATH", "/bin")] 5) "FLAKEDIR"
      = some "/tmp/flake-z/5"
  ∧ Worker.childEnv { cmd := ["sh"], tmpdir := "", outBuf := [] }
        [("PATH", "/bin")] 5
      = [("PATH", "/bin")] :=
  ⟨((flake_flakedir_env
        { cmd := ["sh"], tmpdir := "/tmp/flake-z", outBuf := [] }
        [("PATH", "/bin")] 5).1 (by decide)).trans (by decide),
   ((flake_flakedir_env
        { cmd := ["sh"], tmpdir := "", outBuf := [] }
        [("PATH", "/bin")] 5).2 rfl).1⟩

/-- Two's-complement wrap of a mathematical integer into int64 range. -/
def wrap64 (x : Int) : Int := (x + 2 ^ 63) % 2 ^ 64 - 2 ^ 63

/-- int64 multiplication, as performed on time.Duration values at
flake.go:99. -/
def goMulInt64 (a b : Int) : Int := wrap64 (a * b)

/-- Go int64 division truncates toward zero; division by zero panics and is
guarded in avg by the n == 0 early return, so the zero case here is
arbitrary. -/
def goQuoInt64 (a b : Int) : Int := if b = 0 then 0 else Int.tdiv a b

/-- The avg closure (flake.go:95-100): with no successful iteration observed
it reports nothing (returns the empty string); otherwise it reports
Duration(parallelism) * time.Since(start) / Duration(n). -/
def avgValue (parallelism elapsed n : Int) : Option Int :=
  if n = 0 then none
  else some (goQuoInt64 (goMulInt64 parallelism elapsed) n)

/-- C9: whenever the success count n is nonzero, the reported average
iteration latency is exactly parallelism times the elapsed wall-clock time
since the run started, divided by n with integer division (int64 arithmetic,
exact as long as the product does not exceed the int64 range); when n is
zero, no average is reported. -/
theorem flake_average_latency (p e n : Int) (hp : 0 ≤ p) (he : 0 ≤ e)
    (hn : 0 < n) (hov : p * e < 2 ^ 63) :
    avgValue p e n = some (p * e / n) ∧ avgValue p e 0 = none := by
  constructor
  · have hpe : 0 ≤ p * e := mul_nonneg hp he
    have hwrap : wrap64 (p * e) = p * e := by
      unfold wrap64
      rw [Int.emod_eq_of_lt (by omega) (by omega)]
      omega
    have htdiv : Int.tdiv (p * e) n = p * e / n :=
      Int.tdiv_eq_ediv hpe (le_of_lt hn)
    have hn0 : ¬ n = 0 := by omega
    simp [avgValue, goQuoInt64, goMulInt64, hwrap, hn0, htdiv]
  · simp [avgValue]

/-- C9 witness: with parallelism 2, 10 nanoseconds elapsed and 4 successes
the reported average is 5 nanoseconds; with no successes nothing is
reported. -/
theorem flake_average_latency_witness :
    avgValue 2 10 4 = some 5 ∧ avgValue 2 10 0 = none :=
  ⟨(flake_average_latency 2 10 4 (by decide) (by decide) (by decide)
      (by decide)).1.trans (by decide),
   (flake_average_latency 2 10 4 (by decide) (by decide) (by decide)
      (by decide)).2⟩
